import Mathlib

/-!
# Verification of `examples/timer_input_capture/timer_input_capture.cpp`

Shallow embedding of the `TimerInputCaptureTest` class from the stm32plus
timer input capture demo.  The interrupt handler `onInterrupt` and the
foreground measurement loop `run` are translated from the source; the
stm32plus library routines `calculateFrequency` and
`StringUtil::modp_uitoa10`, which the example calls but whose sources are
not part of this tree, are modelled from the specification, as noted on
their doc comments.

Machine integers are modelled as `Nat` with explicit reduction modulo
`2^16` (the `uint16_t` capture slots) and modulo `2^8` (the `uint8_t`
capture index) at the points where the C++ types truncate.
-/

namespace TimerInputCapture

/-- `COUNTER_MAX` for the 16-bit free-running counter of Timer3:
the capture slots `_captures[2]` are `volatile uint16_t`. -/
def COUNTER_MAX : Nat := 65535

/-- Modelled from the spec: the wraparound-safe elapsed-tick computation
inside the library routine `calculateFrequency` (stm32plus library code not
present under `src/`).  Per §4.4 of the spec it is
`elapsed = (slots[1] - slots[0]) mod (COUNTER_MAX+1)`, i.e. modular
subtraction over the 16-bit counter domain. -/
def elapsedTicks (a b : Nat) : Nat :=
  ((b % (COUNTER_MAX + 1)) + (COUNTER_MAX + 1) - (a % (COUNTER_MAX + 1)))
    % (COUNTER_MAX + 1)

/-- Modelled from the spec: `calculateFrequency` is stm32plus library code
(called as `_myInputTimer->calculateFrequency(_captures[0],_captures[1])`)
whose source is not present under `src/`.  Per §4.4/§7 of the spec it
computes `elapsed = (slots[1] - slots[0]) mod (COUNTER_MAX+1)` and returns
`tickRate / elapsed` (integer division), or the invalid-measurement
sentinel — modelled here as `none` — when `elapsed = 0`, never dividing by
zero. -/
def calculateFrequency (tickRate a b : Nat) : Option Nat :=
  if elapsedTicks a b = 0 then none
  else some (tickRate / elapsedTicks a b)

/-- The `TimerEventType` enumeration values a timer interrupt can deliver
to a `TimerInterruptEventSender` subscriber. -/
inductive TimerEventType where
  | EVENT_COMPARE1
  | EVENT_COMPARE2
  | EVENT_COMPARE3
  | EVENT_COMPARE4
  | EVENT_UPDATE
  | EVENT_TRIGGER
  deriving DecidableEq, Repr

/-- The measurement state of `TimerInputCaptureTest`:
`volatile uint16_t _captures[2]`, `volatile uint8_t _captureIndex`,
`volatile uint32_t _capturedFrequency` and
`volatile bool _capturingNextFrequency`.  The published frequency is an
`Option Nat` because the spec-modelled `calculateFrequency` may yield the
invalid-measurement sentinel (`none`). -/
structure CaptureState where
  captures0 : Nat
  captures1 : Nat
  captureIndex : Nat
  capturedFrequency : Option Nat
  capturingNextFrequency : Bool
  deriving DecidableEq, Repr

/-- A single store to one of the `volatile` members of
`TimerInputCaptureTest`, as executed by one of the two contexts. -/
inductive FieldWrite where
  | captureSlot (i : Nat) (v : Nat)
  | captureIndex (v : Nat)
  | capturedFrequency (v : Option Nat)
  | capturingNextFrequency (b : Bool)
  deriving DecidableEq, Repr

/-- Apply one store to the state.  A `captureSlot` store with an index
other than 0 or 1 would be out of bounds in the C++ (`_captures` has two
entries); such a store is modelled as a no-op and is shown unreachable by
the `captureIndex ∈ {0,1}` invariant. -/
def applyWrite (s : CaptureState) (w : FieldWrite) : CaptureState :=
  match w with
  | .captureSlot 0 v => { s with captures0 := v }
  | .captureSlot 1 v => { s with captures1 := v }
  | .captureSlot _ _ => s
  | .captureIndex v => { s with captureIndex := v }
  | .capturedFrequency v => { s with capturedFrequency := v }
  | .capturingNextFrequency b => { s with capturingNextFrequency := b }

/-- The sequence of stores performed by
`TimerInputCaptureTest::onInterrupt(tet,timerNumber)`, in program order.
`cap` is the value returned by `_myInputTimer->getCapture()`; assigning it
to a `uint16_t` slot truncates it modulo `2^16`.  `_captureIndex` is a
`uint8_t`, so its post-increment wraps modulo `2^8`. -/
def onInterruptWrites (tickRate : Nat) (tet : TimerEventType) (cap : Nat)
    (s : CaptureState) : List FieldWrite :=
  if tet = TimerEventType.EVENT_COMPARE3 then
    let stored := cap % (COUNTER_MAX + 1)
    FieldWrite.captureSlot s.captureIndex stored ::
    FieldWrite.captureIndex ((s.captureIndex + 1) % 256) ::
    (if s.captureIndex = 1 then
      (if s.capturingNextFrequency then
        [FieldWrite.capturedFrequency
            (calculateFrequency tickRate s.captures0 stored),
         FieldWrite.capturingNextFrequency false]
       else []) ++ [FieldWrite.captureIndex 0]
     else [])
  else []

/-- `TimerInputCaptureTest::onInterrupt`: the interrupt callback, run in
the capture (interrupt) context, as the effect of its stores in program
order.  The second C++ argument (`timerNumber`) is ignored by the code. -/
def onInterrupt (tickRate : Nat) (tet : TimerEventType) (cap : Nat)
    (_timerNumber : Nat) (s : CaptureState) : CaptureState :=
  (onInterruptWrites tickRate tet cap s).foldl applyWrite s

/-- The state set up by `run` before the timers are enabled:
`_captureIndex=0; _capturingNextFrequency=true;`.  The capture slots and
`_capturedFrequency` are left uninitialised by the code, so they are
parameters (the slots reduced to the `uint16_t` range). -/
def initState (c0 c1 : Nat) (f : Option Nat) : CaptureState :=
  { captures0 := c0 % (COUNTER_MAX + 1)
    captures1 := c1 % (COUNTER_MAX + 1)
    captureIndex := 0
    capturedFrequency := f
    capturingNextFrequency := true }

/-- The stores performed by one iteration of the foreground `for(;;)`
loop body of `run`, which executes only after the busy-wait
`while(_capturingNextFrequency);` has observed `false`: it formats and
emits the captured frequency, delays 3000 ms, and then performs the single
store `_capturingNextFrequency=true`. -/
def runLoopBodyWrites : List FieldWrite :=
  [FieldWrite.capturingNextFrequency true]

/-- One foreground step of `run`: while `_capturingNextFrequency` is true
the foreground context is stuck in the busy-wait and performs no store;
once it is false the loop body runs and re-arms. -/
def foregroundStep (s : CaptureState) : CaptureState :=
  if s.capturingNextFrequency then s
  else runLoopBodyWrites.foldl applyWrite s

/-- An event of the two-context system: a timer interrupt delivered to
`onInterrupt` (with its event type and the latched capture value), or the
foreground loop completing one busy-wait/emit/delay/re-arm cycle. -/
inductive SysEvent where
  | capture (tet : TimerEventType) (cap : Nat)
  | rearm
  deriving DecidableEq, Repr

/-- One step of the interleaved system. -/
def sysStep (tickRate : Nat) (s : CaptureState) (e : SysEvent) : CaptureState :=
  match e with
  | .capture tet cap => onInterrupt tickRate tet cap 3 s
  | .rearm => foregroundStep s

/-- Execution of a sequence of events from a state. -/
def exec (tickRate : Nat) (s : CaptureState) (evs : List SysEvent) : CaptureState :=
  evs.foldl (sysStep tickRate) s

/-! ## Characterization of the handler branches -/

lemma onInterrupt_nonmatching (tickRate cap t : Nat) (tet : TimerEventType)
    (s : CaptureState) (h : tet ≠ TimerEventType.EVENT_COMPARE3) :
    onInterrupt tickRate tet cap t s = s := by
  simp [onInterrupt, onInterruptWrites, h]

lemma onInterrupt_idx0 (tickRate cap t : Nat) (s : CaptureState)
    (h : s.captureIndex = 0) :
    onInterrupt tickRate TimerEventType.EVENT_COMPARE3 cap t s =
      { s with captures0 := cap % (COUNTER_MAX + 1), captureIndex := 1 } := by
  obtain ⟨a, b, i, fq, arm⟩ := s
  simp only [CaptureState.mk.injEq] at h ⊢
  subst h
  simp [onInterrupt, onInterruptWrites, applyWrite]

lemma onInterrupt_idx1_armed (tickRate cap t : Nat) (s : CaptureState)
    (h : s.captureIndex = 1) (harm : s.capturingNextFrequency = true) :
    onInterrupt tickRate TimerEventType.EVENT_COMPARE3 cap t s =
      { s with captures1 := cap % (COUNTER_MAX + 1)
               captureIndex := 0
               capturedFrequency :=
                 calculateFrequency tickRate s.captures0 (cap % (COUNTER_MAX + 1))
               capturingNextFrequency := false } := by
  obtain ⟨a, b, i, fq, arm⟩ := s
  simp only at h harm
  subst h; subst harm
  simp [onInterrupt, onInterruptWrites, applyWrite]

lemma onInterrupt_idx1_disarmed (tickRate cap t : Nat) (s : CaptureState)
    (h : s.captureIndex = 1) (harm : s.capturingNextFrequency = false) :
    onInterrupt tickRate TimerEventType.EVENT_COMPARE3 cap t s =
      { s with captures1 := cap % (COUNTER_MAX + 1), captureIndex := 0 } := by
  obtain ⟨a, b, i, fq, arm⟩ := s
  simp only at h harm
  subst h; subst harm
  simp [onInterrupt, onInterruptWrites, applyWrite]

/-! ## Output formatting (`run`'s USART emission) -/

/-- The ASCII character for the decimal digit `d < 10`. -/
def digitChar (d : Nat) : Char := Char.ofNat (48 + d)

/-- The decimal-digit character list of `n`, most significant digit
first. -/
def uitoa10Digits (n : Nat) : List Char :=
  if _h : n < 10 then [digitChar n]
  else uitoa10Digits (n / 10) ++ [digitChar (n % 10)]
  termination_by n
  decreasing_by exact Nat.div_lt_self (by omega) (by norm_num)

/-- Modelled from the spec: `StringUtil::modp_uitoa10` is stm32plus
library code not present under `src/`; per §6 of the spec it renders the
published frequency as the decimal digits of an unsigned integer. -/
def modp_uitoa10 (n : Nat) : String := String.mk (uitoa10Digits n)

/-- The text frame one iteration of `run`'s loop sends to the USART:
`outputStream << buf << "Hz\r\n"` with `buf` holding
`modp_uitoa10(_capturedFrequency)`. -/
def emitFrame (f : Nat) : String := modp_uitoa10 f ++ "Hz\r\n"

/-- The unsigned integer denoted by a most-significant-first decimal digit
character list. -/
def digitsVal (ds : List Char) : Nat :=
  ds.foldl (fun a c => 10 * a + (c.toNat - 48)) 0

lemma digitChar_toNat (d : Nat) (h : d < 10) : (digitChar d).toNat = 48 + d := by
  interval_cases d <;> rfl

lemma digitChar_isDigit (d : Nat) (h : d < 10) : (digitChar d).isDigit = true := by
  interval_cases d <;> decide

lemma digitsVal_append_digit (ds : List Char) (c : Char) :
    digitsVal (ds ++ [c]) = 10 * digitsVal ds + (c.toNat - 48) := by
  simp [digitsVal, List.foldl_append]

lemma digitsVal_uitoa10Digits (n : Nat) : digitsVal (uitoa10Digits n) = n := by
  induction n using Nat.strong_induction_on with
  | _ n ih =>
    rw [uitoa10Digits]
    split
    · simp [digitsVal, digitChar_toNat n (by omega)]
    · rename_i h
      rw [digitsVal_append_digit, ih (n / 10) (Nat.div_lt_self (by omega) (by norm_num)),
        digitChar_toNat (n % 10) (Nat.mod_lt _ (by norm_num))]
      omega

lemma uitoa10Digits_all_digits (n : Nat) :
    (uitoa10Digits n).all Char.isDigit = true := by
  induction n using Nat.strong_induction_on with
  | _ n ih =>
    rw [uitoa10Digits]
    split
    · simp [digitChar_isDigit n (by omega)]
    · rename_i h
      simp [List.all_append, ih (n / 10) (Nat.div_lt_self (by omega) (by norm_num)),
        digitChar_isDigit (n % 10) (Nat.mod_lt _ (by norm_num))]

lemma uitoa10Digits_ne_nil (n : Nat) : uitoa10Digits n ≠ [] := by
  rw [uitoa10Digits]
  split <;> simp

/-! ## Reachability of the `captureIndex ∈ \x7b0,1\x7d` invariant -/

lemma sysStep_captureIndex (tickRate : Nat) (s : CaptureState) (e : SysEvent)
    (h : s.captureIndex = 0 ∨ s.captureIndex = 1) :
    (sysStep tickRate s e).captureIndex = 0 ∨
      (sysStep tickRate s e).captureIndex = 1 := by
  cases e with
  | rearm =>
    simp only [sysStep, foregroundStep, runLoopBodyWrites]
    split
    · exact h
    · simpa [applyWrite] using h
  | capture tet cap =>
    by_cases htet : tet = TimerEventType.EVENT_COMPARE3
    · subst htet
      rcases h with h | h
      · rw [sysStep, onInterrupt_idx0 tickRate cap 3 s h]
        right; rfl
      · rcases harm : s.capturingNextFrequency with _ | _
        · rw [sysStep, onInterrupt_idx1_disarmed tickRate cap 3 s h harm]
          left; rfl
        · rw [sysStep, onInterrupt_idx1_armed tickRate cap 3 s h harm]
          left; rfl
    · rw [sysStep, onInterrupt_nonmatching tickRate cap 3 tet s htet]
      exact h

lemma exec_captureIndex (tickRate : Nat) (evs : List SysEvent) (s : CaptureState)
    (h : s.captureIndex = 0 ∨ s.captureIndex = 1) :
    (exec tickRate s evs).captureIndex = 0 ∨
      (exec tickRate s evs).captureIndex = 1 := by
  induction evs generalizing s with
  | nil => exact h
  | cons e evs ih =>
    rw [show exec tickRate s (e :: evs) = exec tickRate (sysStep tickRate s e) evs from rfl]
    exact ih _ (sysStep_captureIndex tickRate s e h)

/-! ## Claims -/

/-- C1: for every capture pair completed while armed, if the elapsed tick
count between the two captures is 0, no division by zero occurs: the
handler publishes the invalid-measurement sentinel (`none`) instead of a
frequency value and still hands the result to the foreground by clearing
the armed flag; the handler is a total function, so no crash or undefined
value results. -/
theorem divide_by_zero_guard (tickRate cap t : Nat) (s : CaptureState)
    (hidx : s.captureIndex = 1) (harm : s.capturingNextFrequency = true)
    (hz : elapsedTicks s.captures0 (cap % (COUNTER_MAX + 1)) = 0) :
    (onInterrupt tickRate TimerEventType.EVENT_COMPARE3 cap t s).capturedFrequency = none
    ∧ (onInterrupt tickRate TimerEventType.EVENT_COMPARE3 cap t s).capturingNextFrequency
        = false := by
  rw [onInterrupt_idx1_armed tickRate cap t s hidx harm]
  exact ⟨by simp [calculateFrequency, hz], rfl⟩

theorem divide_by_zero_guard_witness :
    (onInterrupt 24000000 TimerEventType.EVENT_COMPARE3 7 3
        ⟨7, 0, 1, some 42, true⟩).capturedFrequency = none
    ∧ (onInterrupt 24000000 TimerEventType.EVENT_COMPARE3 7 3
        ⟨7, 0, 1, some 42, true⟩).capturingNextFrequency = false :=
  divide_by_zero_guard 24000000 7 3 ⟨7, 0, 1, some 42, true⟩ rfl rfl (by decide)

/-- C2: for every capture event that completes a pair (`captureIndex` was
1) while armed and with nonzero elapsed ticks, the handler stores
`tickRate / elapsed` (integer division) into `capturedFrequency` and then
clears the armed flag — the store sequence places the
`capturedFrequency` store strictly before the `capturingNextFrequency`
store. -/
theorem publish_stores_then_disarms (tickRate cap t : Nat) (s : CaptureState)
    (hidx : s.captureIndex = 1) (harm : s.capturingNextFrequency = true)
    (hnz : elapsedTicks s.captures0 (cap % (COUNTER_MAX + 1)) ≠ 0) :
    (onInterrupt tickRate TimerEventType.EVENT_COMPARE3 cap t s).capturedFrequency
      = some (tickRate / elapsedTicks s.captures0 (cap % (COUNTER_MAX + 1)))
    ∧ (onInterrupt tickRate TimerEventType.EVENT_COMPARE3 cap t s).capturingNextFrequency
        = false
    ∧ onInterruptWrites tickRate TimerEventType.EVENT_COMPARE3 cap s =
      [FieldWrite.captureSlot 1 (cap % (COUNTER_MAX + 1)),
       FieldWrite.captureIndex 2,
       FieldWrite.capturedFrequency
         (some (tickRate / elapsedTicks s.captures0 (cap % (COUNTER_MAX + 1)))),
       FieldWrite.capturingNextFrequency false,
       FieldWrite.captureIndex 0] := by
  refine ⟨?_, ?_, ?_⟩
  · rw [onInterrupt_idx1_armed tickRate cap t s hidx harm]
    simp [calculateFrequency, hnz]
  · rw [onInterrupt_idx1_armed tickRate cap t s hidx harm]
  · simp [onInterruptWrites, hidx, harm, calculateFrequency, hnz]

theorem publish_stores_then_disarms_witness :
    (onInterrupt 24000000 TimerEventType.EVENT_COMPARE3 1240 3
        ⟨1000, 0, 1, none, true⟩).capturedFrequency
      = some (24000000 / elapsedTicks 1000 (1240 % (COUNTER_MAX + 1)))
    ∧ (onInterrupt 24000000 TimerEventType.EVENT_COMPARE3 1240 3
        ⟨1000, 0, 1, none, true⟩).capturingNextFrequency = false
    ∧ onInterruptWrites 24000000 TimerEventType.EVENT_COMPARE3 1240
        ⟨1000, 0, 1, none, true⟩ =
      [FieldWrite.captureSlot 1 (1240 % (COUNTER_MAX + 1)),
       FieldWrite.captureIndex 2,
       FieldWrite.capturedFrequency
         (some (24000000 / elapsedTicks 1000 (1240 % (COUNTER_MAX + 1)))),
       FieldWrite.capturingNextFrequency false,
       FieldWrite.captureIndex 0] :=
  publish_stores_then_disarms 24000000 1240 3 ⟨1000, 0, 1, none, true⟩ rfl rfl (by decide)

/-- C3: for 16-bit tick counts `a`, `b` the elapsed count
`(b - a) mod 2^16` equals the true linear distance in both orderings:
`b - a` for `b ≥ a`, the wrapped distance `b + 2^16 - a` for `b < a`, and
for any start `a` and true distance `d ≤ COUNTER_MAX` the computation
recovers `d` from the truncated second capture `(a + d) mod 2^16`. -/
theorem elapsed_wraparound_correct (a b d : Nat)
    (ha : a ≤ COUNTER_MAX) (hb : b ≤ COUNTER_MAX) (hd : d ≤ COUNTER_MAX) :
    (a ≤ b → elapsedTicks a b = b - a)
    ∧ (b < a → elapsedTicks a b = b + (COUNTER_MAX + 1) - a)
    ∧ elapsedTicks a ((a + d) % (COUNTER_MAX + 1)) = d := by
  simp only [elapsedTicks, COUNTER_MAX] at *
  refine ⟨fun hab => ?_, fun hab => ?_, ?_⟩ <;> omega

theorem elapsed_wraparound_correct_witness :
    elapsedTicks 65000 ((65000 + 636) % (COUNTER_MAX + 1)) = 636 :=
  (elapsed_wraparound_correct 65000 100 636 (by decide) (by decide) (by decide)).2.2

/-- C4: a pair completed while disarmed publishes nothing: the resulting
state is exactly the input state with the second slot overwritten and the
index reset — `capturedFrequency` unchanged, armed flag still false, and
no other field records the pair for a later arm cycle. -/
theorem disarmed_pair_discarded (tickRate cap t : Nat) (s : CaptureState)
    (hidx : s.captureIndex = 1) (harm : s.capturingNextFrequency = false) :
    onInterrupt tickRate TimerEventType.EVENT_COMPARE3 cap t s =
      { s with captures1 := cap % (COUNTER_MAX + 1), captureIndex := 0 }
    ∧ (onInterrupt tickRate TimerEventType.EVENT_COMPARE3 cap t s).capturedFrequency
        = s.capturedFrequency
    ∧ (onInterrupt tickRate TimerEventType.EVENT_COMPARE3 cap t s).capturingNextFrequency
        = false := by
  have h := onInterrupt_idx1_disarmed tickRate cap t s hidx harm
  exact ⟨h, by rw [h], by rw [h]; exact harm⟩

theorem disarmed_pair_discarded_witness :
    onInterrupt 24000000 TimerEventType.EVENT_COMPARE3 70000 3
        ⟨3, 9, 1, some 5, false⟩ =
      { (⟨3, 9, 1, some 5, false⟩ : CaptureState) with
          captures1 := 70000 % (COUNTER_MAX + 1), captureIndex := 0 }
    ∧ (onInterrupt 24000000 TimerEventType.EVENT_COMPARE3 70000 3
        ⟨3, 9, 1, some 5, false⟩).capturedFrequency
        = (⟨3, 9, 1, some 5, false⟩ : CaptureState).capturedFrequency
    ∧ (onInterrupt 24000000 TimerEventType.EVENT_COMPARE3 70000 3
        ⟨3, 9, 1, some 5, false⟩).capturingNextFrequency = false :=
  disarmed_pair_discarded 24000000 70000 3 ⟨3, 9, 1, some 5, false⟩ rfl rfl

/-- C5: `captureIndex ∈ \x7b0,1\x7d` after every handler invocation from
the initial state; a matching capture taken with index 1 resets the index
to 0 (whatever the armed flag), and one taken with index 0 sets it to 1
without publishing (`capturedFrequency` and the armed flag untouched). -/
theorem nextSlot_invariant (tickRate c0 c1 : Nat) (f : Option Nat)
    (evs : List SysEvent) (s : CaptureState) (cap t : Nat) :
    ((exec tickRate (initState c0 c1 f) evs).captureIndex = 0
      ∨ (exec tickRate (initState c0 c1 f) evs).captureIndex = 1)
    ∧ (s.captureIndex = 1 →
        (onInterrupt tickRate TimerEventType.EVENT_COMPARE3 cap t s).captureIndex = 0)
    ∧ (s.captureIndex = 0 →
        (onInterrupt tickRate TimerEventType.EVENT_COMPARE3 cap t s).captureIndex = 1
        ∧ (onInterrupt tickRate TimerEventType.EVENT_COMPARE3 cap t s).capturedFrequency
            = s.capturedFrequency
        ∧ (onInterrupt tickRate TimerEventType.EVENT_COMPARE3 cap t s).capturingNextFrequency
            = s.capturingNextFrequency) := by
  refine ⟨exec_captureIndex tickRate evs _ (Or.inl rfl), fun hidx => ?_, fun hidx => ?_⟩
  · rcases harm : s.capturingNextFrequency with _ | _
    · rw [onInterrupt_idx1_disarmed tickRate cap t s hidx harm]
    · rw [onInterrupt_idx1_armed tickRate cap t s hidx harm]
  · rw [onInterrupt_idx0 tickRate cap t s hidx]
    exact ⟨rfl, rfl, rfl⟩

theorem nextSlot_invariant_witness :
    (onInterrupt 24000000 TimerEventType.EVENT_COMPARE3 9 3
        ⟨1, 2, 1, none, false⟩).captureIndex = 0 :=
  (nextSlot_invariant 24000000 0 0 none [] ⟨1, 2, 1, none, false⟩ 9 3).2.1 rfl

/-- C6: the armed flag `_capturingNextFrequency` is written in one
direction per context: every store of it in the interrupt handler's store
sequence writes `false` and is only emitted from a state where the flag
was `true`, the foreground loop body's only store of it writes `true`,
the foreground busy-wait performs no store while the flag is `true`, and
from an observed `false` the foreground step raises it to `true`. -/
theorem armed_single_writer_per_direction (tickRate cap : Nat)
    (tet : TimerEventType) (s : CaptureState) :
    (∀ b : Bool,
        FieldWrite.capturingNextFrequency b ∈ onInterruptWrites tickRate tet cap s →
        b = false ∧ s.capturingNextFrequency = true)
    ∧ (∀ b : Bool, FieldWrite.capturingNextFrequency b ∈ runLoopBodyWrites → b = true)
    ∧ (s.capturingNextFrequency = true → foregroundStep s = s)
    ∧ (s.capturingNextFrequency = false →
        (foregroundStep s).capturingNextFrequency = true) := by
  refine ⟨fun b hb => ?_, fun b hb => ?_, fun h => ?_, fun h => ?_⟩
  · by_cases htet : tet = TimerEventType.EVENT_COMPARE3
    · by_cases hidx : s.captureIndex = 1
      · by_cases harm : s.capturingNextFrequency = true
        · simp [onInterruptWrites, htet, hidx, harm] at hb
          exact ⟨hb, harm⟩
        · simp [onInterruptWrites, htet, hidx, harm] at hb
      · simp [onInterruptWrites, htet, hidx] at hb
    · simp [onInterruptWrites, htet] at hb
  · simp [runLoopBodyWrites] at hb
    exact hb
  · simp [foregroundStep, h]
  · simp [foregroundStep, h, runLoopBodyWrites, applyWrite]

theorem armed_single_writer_per_direction_witness :
    ((false : Bool) = false
      ∧ (⟨0, 0, 1, none, true⟩ : CaptureState).capturingNextFrequency = true)
    ∧ (foregroundStep ⟨0, 0, 0, none, false⟩).capturingNextFrequency = true :=
  ⟨(armed_single_writer_per_direction 24000000 7 TimerEventType.EVENT_COMPARE3
      ⟨0, 0, 1, none, true⟩).1 false (by decide),
   (armed_single_writer_per_direction 24000000 7 TimerEventType.EVENT_COMPARE3
      ⟨0, 0, 0, none, false⟩).2.2.2 rfl⟩

/-- C7: a delivered timer event whose kind is not `EVENT_COMPARE3` leaves
the entire measurement state unchanged. -/
theorem nonmatching_event_preserves_state (tickRate cap t : Nat)
    (tet : TimerEventType) (s : CaptureState)
    (h : tet ≠ TimerEventType.EVENT_COMPARE3) :
    onInterrupt tickRate tet cap t s = s :=
  onInterrupt_nonmatching tickRate cap t tet s h

theorem nonmatching_event_preserves_state_witness :
    onInterrupt 24000000 TimerEventType.EVENT_UPDATE 1234 3
        ⟨1, 2, 0, some 9, true⟩ = ⟨1, 2, 0, some 9, true⟩ :=
  nonmatching_event_preserves_state 24000000 1234 3 TimerEventType.EVENT_UPDATE
    ⟨1, 2, 0, some 9, true⟩ (by decide)

/-- C8: from the armed initial state, captures 240 ticks apart at tick
rate 24000000 yield a published frequency of 100000, and captures 80
ticks apart at tick rate 800000 yield 10000. -/
theorem end_to_end_frequencies :
    (exec 24000000 (initState 0 0 none)
        [SysEvent.capture TimerEventType.EVENT_COMPARE3 1000,
         SysEvent.capture TimerEventType.EVENT_COMPARE3 1240]).capturedFrequency
      = some 100000
    ∧ (exec 800000 (initState 0 0 none)
        [SysEvent.capture TimerEventType.EVENT_COMPARE3 500,
         SysEvent.capture TimerEventType.EVENT_COMPARE3 580]).capturedFrequency
      = some 10000 := by
  decide

/-- C9: every emitted text frame is the decimal digit string of the
published frequency followed by exactly the characters `H`, `z`,
carriage return, line feed; the digit part is nonempty, consists only of
digit characters, and denotes the published value. -/
theorem output_frame_shape (f : Nat) :
    (emitFrame f).data = uitoa10Digits f ++ ['H', 'z', '\r', '\n']
    ∧ uitoa10Digits f ≠ []
    ∧ (uitoa10Digits f).all Char.isDigit = true
    ∧ digitsVal (uitoa10Digits f) = f := by
  refine ⟨?_, uitoa10Digits_ne_nil f, uitoa10Digits_all_digits f,
    digitsVal_uitoa10Digits f⟩
  simp [emitFrame, modp_uitoa10]

/-- C10: the tick-count width is 16 bits: `COUNTER_MAX + 1 = 2^16`, any
wider capture value is truncated modulo `2^16` when stored into either
slot, and the elapsed-tick computation is performed modulo `2^16` (its
result is below `2^16` and depends only on the inputs modulo `2^16`). -/
theorem counter_width_16bit (tickRate cap t : Nat) (s : CaptureState) :
    COUNTER_MAX + 1 = 2 ^ 16
    ∧ (s.captureIndex = 0 →
        (onInterrupt tickRate TimerEventType.EVENT_COMPARE3 cap t s).captures0
          = cap % 2 ^ 16)
    ∧ (s.captureIndex = 1 →
        (onInterrupt tickRate TimerEventType.EVENT_COMPARE3 cap t s).captures1
          = cap % 2 ^ 16)
    ∧ (∀ a b : Nat, elapsedTicks a b < 2 ^ 16
        ∧ elapsedTicks a b = elapsedTicks (a % 2 ^ 16) (b % 2 ^ 16)) := by
  have h16 : (2 : Nat) ^ 16 = 65536 := by norm_num
  refine ⟨by norm_num [COUNTER_MAX], fun hidx => ?_, fun hidx => ?_, fun a b => ?_⟩
  · rw [onInterrupt_idx0 tickRate cap t s hidx]
    norm_num [COUNTER_MAX]
  · rcases harm : s.capturingNextFrequency with _ | _
    · rw [onInterrupt_idx1_disarmed tickRate cap t s hidx harm]
      norm_num [COUNTER_MAX]
    · rw [onInterrupt_idx1_armed tickRate cap t s hidx harm]
      norm_num [COUNTER_MAX]
  · simp only [elapsedTicks, COUNTER_MAX, h16]
    omega

theorem counter_width_16bit_witness :
    (onInterrupt 24000000 TimerEventType.EVENT_COMPARE3 70000 3
        ⟨0, 0, 0, none, true⟩).captures0 = 70000 % 2 ^ 16 :=
  (counter_width_16bit 24000000 70000 3 ⟨0, 0, 0, none, true⟩).2.1 rfl

end TimerInputCapture
